import Mathlib

/-!
Verification of the StoreFront salon booking core (src/backend/server.py)
against its natural-language specification.

Shallow embedding conventions:
* ISO datetime strings are modelled as `Int` minutes from a fixed epoch;
  string comparison on same-format ISO timestamps is order-isomorphic to
  chronological (hence integer) comparison, and all times handled by the
  code are at minute granularity.
* A calendar date is modelled as an `Int` day index (a validly parsed
  `"%Y-%m-%d"` string); the absolute time of minute `m` of day `d` is
  `d * 1440 + m`, and the weekday name of day `d` is modelled by
  `d.emod 7`.
* Mongo documents become Lean structures; uuid ids become a `Nat`
  counter (ids are only ever compared for equality/uniqueness).
* Presentation-only fields (the `display` strftime string of a slot,
  the free-text `reason`, `changedAt`/`createdAt` timestamps, WhatsApp
  message bodies) are omitted: no claim mentions them.
* HTTPException outcomes become `Except Err`; each handler raises before
  any write, so a failing handler leaves the store unchanged.
-/

namespace StoreFront

/-- The four error kinds of the spec's taxonomy (§7), matching the HTTP
status codes raised by server.py: 404, 409, 400, 403. -/
inductive Err where
  | notFound
  | conflict
  | validation
  | forbidden
deriving Repr, DecidableEq

instance {α β : Type} [DecidableEq α] [DecidableEq β] : DecidableEq (Except α β) := fun x y =>
  match x, y with
  | .ok a, .ok b =>
    if h : a = b then .isTrue (by rw [h]) else .isFalse (fun hc => by cases hc; exact h rfl)
  | .error a, .error b =>
    if h : a = b then .isTrue (by rw [h]) else .isFalse (fun hc => by cases hc; exact h rfl)
  | .ok _, .error _ => .isFalse (fun hc => by cases hc)
  | .error _, .ok _ => .isFalse (fun hc => by cases hc)

/-- The `Booking` document (server.py `class Booking`), restricted to the
fields the scheduling core reads: id, salonId, startTime, endTime, status,
staffId. -/
structure Booking where
  id : Nat
  salonId : String
  startTime : Int
  endTime : Int
  status : String
  staffId : Option String
deriving Repr, DecidableEq

/-- The `BookingChange` audit document (server.py `class BookingChange`),
restricted to the fields set by the two writers (`update_booking_status`
and `reschedule_booking`); unset optional fields default to `none` as in
the pydantic model. -/
structure BookingChange where
  bookingId : Nat
  oldStartTime : Option Int
  newStartTime : Option Int
  oldStaffId : Option String
  newStaffId : Option String
  oldStatus : Option String
  newStatus : Option String
deriving Repr, DecidableEq

/-- The mutable store: the `bookings` and `booking_changes` collections,
plus the id counter standing in for uuid generation. -/
structure DB where
  bookings : List Booking
  changes : List BookingChange
  nextId : Nat
deriving Repr, DecidableEq

/-- The initially empty booking store. -/
def dbInit : DB := ⟨[], [], 0⟩

/-- The five recognized statuses (server.py `class BookingStatus` /
`valid_statuses` in `update_booking_status`). -/
def validStatuses : List String :=
  ["pending", "confirmed", "cancelled", "completed", "no_show"]

/-- The Mongo overlap query of `check_slot_available` (server.py:523-525):
a stored booking conflicts with the window `[s, e)` when
`startTime < e ∧ endTime > s`. -/
def overlapsQ (s e : Int) (b : Booking) : Bool :=
  decide (b.startTime < e) && decide (s < b.endTime)

/-- The full conflict predicate of `check_slot_available`'s query
(server.py:520-529): same salon, not cancelled, overlapping, and not the
excluded booking id. -/
def conflictP (sid : String) (s e : Int) (excl : Option Nat) (b : Booking) : Bool :=
  b.salonId == sid && b.status != "cancelled" && overlapsQ s e b &&
    (match excl with
     | some i => b.id != i
     | none => true)

/-- `check_slot_available` (server.py:514-535): count conflicting bookings
and compare against `totalSeats`. -/
def check_slot_available (seats : Int) (bks : List Booking) (sid : String)
    (s e : Int) (excl : Option Nat) : Bool :=
  decide ((bks.countP (conflictP sid s e excl) : Int) < seats)

/-- Mongo `update_one`: update the first document whose id matches. -/
def updateFirst (i : Nat) (f : Booking → Booking) : List Booking → List Booking
  | [] => []
  | b :: bs => if b.id == i then f b :: bs else b :: updateFirst i f bs

/-- A booking-lifecycle request, with resolved inputs: `create` carries the
resolved total duration (sum of active-service durations or the client
override, server.py:729-746); `reschedule` carries the instant `now` at
which the handler ran (`datetime.now(IST)`, server.py:1204). -/
inductive Op where
  | create (startTime : Int) (totalDuration : Int)
  | setStatus (bookingId : Nat) (newStatus : String) (staffId : Option String)
  | reschedule (bookingId : Nat) (newStartTime : Int) (staffId : Option String) (now : Int)
deriving Repr, DecidableEq

/-- One booking-lifecycle request against the store: `create_public_booking`
(server.py:719-817), `update_booking_status` (server.py:1116-1179) and
`reschedule_booking` (server.py:1181-1257). `gate` is the
`booking_calendar_enabled` feature flag checked by `check_booking_enabled`
(server.py:399-403); `sid` the salon profile id; `seats` its `totalSeats`. -/
def step (gate : Bool) (sid : String) (seats : Int) (db : DB) : Op → Except Err DB
  | .create s dur =>
    if !gate then .error .forbidden
    else
      let e := s + dur
      if check_slot_available seats db.bookings sid s e none then
        .ok { bookings := db.bookings ++ [⟨db.nextId, sid, s, e, "pending", none⟩],
              changes := db.changes,
              nextId := db.nextId + 1 }
      else .error .conflict
  | .setStatus i st staff =>
    if !gate then .error .forbidden
    else
      match db.bookings.find? (fun b => b.id == i) with
      | none => .error .notFound
      | some b =>
        if validStatuses.contains st then
          .ok { bookings := updateFirst i
                  (fun bk => { bk with
                                status := st,
                                staffId := match staff with
                                           | some x => some x
                                           | none => bk.staffId }) db.bookings,
                changes := db.changes ++
                  [⟨i, none, none, b.staffId, staff, some b.status, some st⟩],
                nextId := db.nextId }
        else .error .validation
  | .reschedule i ns staff now =>
    if !gate then .error .forbidden
    else
      match db.bookings.find? (fun b => b.id == i) with
      | none => .error .notFound
      | some b =>
        let dur := b.endTime - b.startTime
        let ne := ns + dur
        if ns < now then .error .validation
        else if check_slot_available seats db.bookings b.salonId ns ne (some i) then
          .ok { bookings := updateFirst i
                  (fun bk => { bk with
                                startTime := ns,
                                endTime := ne,
                                status := "confirmed",
                                staffId := match staff with
                                           | some x => some x
                                           | none => bk.staffId }) db.bookings,
                changes := db.changes ++
                  [⟨i, some b.startTime, some ns, b.staffId, staff, none, none⟩],
                nextId := db.nextId }
        else .error .conflict

/-- The store after a request: a raised HTTPException happens before any
write, so a failed request leaves the store unchanged. -/
def applyOp (gate : Bool) (sid : String) (seats : Int) (db : DB) (op : Op) : DB :=
  match step gate sid seats db op with
  | .ok db2 => db2
  | .error _ => db

/-- A sequence of requests executed one at a time. -/
def runOps (gate : Bool) (sid : String) (seats : Int) (db : DB) : List Op → DB
  | [] => db
  | op :: ops => runOps gate sid seats (applyOp gate sid seats db op) ops

/-- A non-cancelled booking whose half-open interval `[startTime, endTime)`
contains the instant `t`. -/
def activeAt (t : Int) (b : Booking) : Bool :=
  b.status != "cancelled" && decide (b.startTime ≤ t) && decide (t < b.endTime)

/-- The spec's capacity invariant: at every instant, the number of
non-cancelled bookings in progress is at most `totalSeats`. -/
def capacityOK (seats : Int) (bks : List Booking) : Prop :=
  ∀ t : Int, (bks.countP (activeAt t) : Int) ≤ seats

/-- A status update that turns a cancelled booking back into a
non-cancelled one (and would be accepted by the handler). -/
def resurrects (db : DB) : Op → Bool
  | .setStatus i st _ =>
    (match db.bookings.find? (fun b => b.id == i) with
     | some b => b.status == "cancelled" && st != "cancelled" && validStatuses.contains st
     | none => false)
  | _ => false

/-- No request of the sequence, run from `db`, un-cancels a booking. -/
def noResurrect (gate : Bool) (sid : String) (seats : Int) (db : DB) : List Op → Bool
  | [] => true
  | op :: ops => !resurrects db op && noResurrect gate sid seats (applyOp gate sid seats db op) ops

theorem find?_updateFirst (i : Nat) (f : Booking → Booking) (l : List Booking)
    (hf : ∀ bk, (f bk).id = bk.id) :
    (updateFirst i f l).find? (fun b => b.id == i) = (l.find? (fun b => b.id == i)).map f := by
  induction l with
  | nil => rfl
  | cons b bs ih =>
    simp only [updateFirst]
    by_cases h : (b.id == i) = true
    · simp [List.find?, h, hf b]
    · simp only [if_neg h, List.find?, hf b, h, ih]

theorem find?_updateFirst_some (i : Nat) (f : Booking → Booking) (l : List Booking) (b : Booking)
    (hf : ∀ bk, (f bk).id = bk.id)
    (hfind : l.find? (fun x => x.id == i) = some b) :
    (updateFirst i f l).find? (fun x => x.id == i) = some (f b) := by
  rw [find?_updateFirst i f l hf, hfind]
  rfl

/-- A concrete one-booking store used by witnesses. -/
def bW : Booking := ⟨0, "salon-1", 100, 130, "pending", none⟩

/-- Witness store: one pending booking `[100, 130)` for `salon-1`. -/
def dbW : DB := ⟨[bW], [], 1⟩

/-- C6: a successful reschedule computes the new end time from the stored
booking's `endTime - startTime`, so duration is preserved. -/
theorem C6_reschedule_preserves_duration
    (gate : Bool) (sid : String) (seats : Int) (db : DB)
    (i : Nat) (ns : Int) (staff : Option String) (now : Int) (b : Booking) (db2 : DB)
    (hfind : db.bookings.find? (fun x => x.id == i) = some b)
    (hok : step gate sid seats db (.reschedule i ns staff now) = .ok db2) :
    ∃ b2, db2.bookings.find? (fun x => x.id == i) = some b2 ∧
      b2.endTime - b2.startTime = b.endTime - b.startTime := by
  simp only [step, hfind] at hok
  split at hok
  · exact absurd hok (by simp)
  · split at hok
    · exact absurd hok (by simp)
    · split at hok
      · cases hok
        exact ⟨_, find?_updateFirst_some i _ db.bookings b (fun bk => rfl) hfind,
          show ns + (b.endTime - b.startTime) - ns = b.endTime - b.startTime by omega⟩
      · exact absurd hok (by simp)

/-- C6 witness: rescheduling the pending booking `[100, 130)` to start 200
succeeds and the updated booking still spans 30 minutes. -/
theorem C6_witness :
    dbW.bookings.find? (fun x => x.id == 0) = some bW ∧
    step true "salon-1" 1 dbW (.reschedule 0 200 none 150) =
      .ok ⟨[⟨0, "salon-1", 200, 230, "confirmed", none⟩],
           [⟨0, some 100, some 200, none, none, none, none⟩], 1⟩ ∧
    ∃ b2, (⟨[⟨0, "salon-1", 200, 230, "confirmed", none⟩],
            [⟨0, some 100, some 200, none, none, none, none⟩], 1⟩ : DB).bookings.find?
        (fun x => x.id == 0) = some b2 ∧
      b2.endTime - b2.startTime = bW.endTime - bW.startTime :=
  ⟨rfl, rfl, C6_reschedule_preserves_duration true "salon-1" 1 dbW 0 200 none 150 bW _ rfl rfl⟩

/-- C7: a successful reschedule sets the stored start/end times to the new
window and forces status to `confirmed`, whatever the prior status was. -/
theorem C7_reschedule_confirms
    (gate : Bool) (sid : String) (seats : Int) (db : DB)
    (i : Nat) (ns : Int) (staff : Option String) (now : Int) (b : Booking) (db2 : DB)
    (hfind : db.bookings.find? (fun x => x.id == i) = some b)
    (hok : step gate sid seats db (.reschedule i ns staff now) = .ok db2) :
    ∃ b2, db2.bookings.find? (fun x => x.id == i) = some b2 ∧
      b2.startTime = ns ∧ b2.endTime = ns + (b.endTime - b.startTime) ∧
      b2.status = "confirmed" := by
  simp only [step, hfind] at hok
  split at hok
  · exact absurd hok (by simp)
  · split at hok
    · exact absurd hok (by simp)
    · split at hok
      · cases hok
        exact ⟨_, find?_updateFirst_some i _ db.bookings b (fun bk => rfl) hfind,
          rfl, rfl, rfl⟩
      · exact absurd hok (by simp)

/-- A witness booking that is cancelled, and the store holding it. -/
def bC7 : Booking := ⟨0, "salon-1", 100, 130, "cancelled", none⟩

/-- Witness store for C7: one cancelled booking. -/
def dbC7 : DB := ⟨[bC7], [], 1⟩

/-- C7 witness: rescheduling the cancelled witness booking to start 200
yields start 200, end 230 and status `confirmed`. -/
theorem C7_witness :
    dbC7.bookings.find? (fun x => x.id == 0) = some bC7 ∧
    step true "salon-1" 1 dbC7 (.reschedule 0 200 none 150) =
      .ok ⟨[⟨0, "salon-1", 200, 230, "confirmed", none⟩],
           [⟨0, some 100, some 200, none, none, none, none⟩], 1⟩ ∧
    ∃ b2, (⟨[⟨0, "salon-1", 200, 230, "confirmed", none⟩],
            [⟨0, some 100, some 200, none, none, none, none⟩], 1⟩ : DB).bookings.find?
        (fun x => x.id == 0) = some b2 ∧
      b2.startTime = 200 ∧ b2.endTime = 200 + (bC7.endTime - bC7.startTime) ∧
      b2.status = "confirmed" :=
  ⟨rfl, rfl, C7_reschedule_confirms true "salon-1" 1 dbC7 0 200 none 150 bC7 _ rfl rfl⟩

/-- C8: a reschedule whose new start is before the current instant fails
with Validation before the conflict check is consulted, and the store is
unchanged. -/
theorem C8_past_reschedule_rejected
    (sid : String) (seats : Int) (db : DB)
    (i : Nat) (ns : Int) (staff : Option String) (now : Int) (b : Booking)
    (hfind : db.bookings.find? (fun x => x.id == i) = some b)
    (hpast : ns < now) :
    step true sid seats db (.reschedule i ns staff now) = .error .validation ∧
    applyOp true sid seats db (.reschedule i ns staff now) = db := by
  have h1 : step true sid seats db (.reschedule i ns staff now) = .error .validation := by
    simp [step, hfind, hpast]
  exact ⟨h1, by simp [applyOp, h1]⟩

/-- C8 witness: rescheduling the witness booking to 200 when the current
instant is 300 is rejected with Validation and leaves the store unchanged,
although the target window is free. -/
theorem C8_witness :
    dbW.bookings.find? (fun x => x.id == 0) = some bW ∧ (200 : Int) < 300 ∧
    (step true "salon-1" 1 dbW (.reschedule 0 200 none 300) = .error .validation ∧
     applyOp true "salon-1" 1 dbW (.reschedule 0 200 none 300) = dbW) :=
  ⟨rfl, by decide, C8_past_reschedule_rejected "salon-1" 1 dbW 0 200 none 300 bW rfl (by decide)⟩

/-- C9: for an existing booking, the status update fails with Validation
exactly when the requested status is not one of the five recognized values;
any recognized value succeeds with no restriction on the prior status. -/
theorem C9_setStatus_validation
    (sid : String) (seats : Int) (db : DB)
    (i : Nat) (st : String) (staff : Option String) (b : Booking)
    (hfind : db.bookings.find? (fun x => x.id == i) = some b) :
    ((step true sid seats db (.setStatus i st staff) = .error .validation) ↔
      st ∉ validStatuses) ∧
    (st ∈ validStatuses →
      ∃ db2, step true sid seats db (.setStatus i st staff) = .ok db2 ∧
        ∃ b2, db2.bookings.find? (fun x => x.id == i) = some b2 ∧ b2.status = st) := by
  constructor
  · by_cases hm : st ∈ validStatuses
    · simp [step, hfind, hm]
    · simp [step, hfind, hm]
  · intro hm
    refine ⟨{ bookings := updateFirst i
                (fun bk => { bk with
                              status := st,
                              staffId := match staff with
                                         | some x => some x
                                         | none => bk.staffId }) db.bookings,
              changes := db.changes ++
                [⟨i, none, none, b.staffId, staff, some b.status, some st⟩],
              nextId := db.nextId }, ?_,
      _, find?_updateFirst_some i _ db.bookings b (fun bk => rfl) hfind, rfl⟩
    simp [step, hfind, hm]

/-- C9 witness: marking the pending witness booking `no_show` is accepted
(no predecessor restriction) and is not a Validation failure. -/
theorem C9_witness :
    dbW.bookings.find? (fun x => x.id == 0) = some bW ∧
    (((step true "salon-1" 1 dbW (.setStatus 0 "no_show" none) = .error .validation) ↔
        "no_show" ∉ validStatuses) ∧
      ("no_show" ∈ validStatuses →
        ∃ db2, step true "salon-1" 1 dbW (.setStatus 0 "no_show" none) = .ok db2 ∧
          ∃ b2, db2.bookings.find? (fun x => x.id == 0) = some b2 ∧ b2.status = "no_show")) :=
  ⟨rfl, C9_setStatus_validation "salon-1" 1 dbW 0 "no_show" none bW rfl⟩

/-- A per-weekday entry of `workingHoursJson` (server.py `class
WorkingHours`): weekday index (the weekday name of day `d` is modelled by
`d.emod 7`), open/close times of day in minutes, closed flag. -/
structure WorkingHoursE where
  day : Int
  openM : Int
  closeM : Int
  closed : Bool
deriving Repr, DecidableEq

/-- The salon profile fields read by the availability path (server.py
`class SalonProfile`, booking-system fields). -/
structure Salon where
  id : String
  workingHoursJson : List WorkingHoursE
  slotDurationMins : Int
  totalSeats : Int
deriving Repr, DecidableEq

/-- The service fields consumed by the core (server.py `class Service`). -/
structure Service where
  id : String
  durationMins : Int
  active : Bool
deriving Repr, DecidableEq

/-- An ephemeral availability slot (server.py:503-508); the `display`
strftime string is presentation-only and omitted. -/
structure Slot where
  startTime : Int
  endTime : Int
  remainingSeats : Int
deriving Repr, DecidableEq

/-- The read-only state consumed by the availability path: feature gate,
salon profile document, services and bookings collections, and the current
instant `datetime.now(IST)` in minutes. -/
structure AvailState where
  gateEnabled : Bool
  salon : Option Salon
  services : List Service
  bookings : List Booking
  now : Int
deriving Repr, DecidableEq

/-- `get_working_hours_for_date` (server.py:415-427): first entry matching
the weekday; closed entry yields the closed sentinel; no entry yields the
default window 10:00-20:00 (minutes 600-1200). -/
def get_working_hours_for_date (salon : Salon) (date : Int) : Option (Int × Int) :=
  match salon.workingHoursJson.find? (fun wh => wh.day == date.emod 7) with
  | some wh => if wh.closed then none else some (wh.openM, wh.closeM)
  | none => some (600, 1200)

/-- The overlap count of the slot loop (server.py:487-491): booked ranges
`[b_start, b_end)` overlapping `[s, e)` unless `e ≤ b_start ∨ s ≥ b_end`. -/
def overlapCount (booked : List (Int × Int)) (s e : Int) : Nat :=
  booked.countP (fun r => !(decide (e ≤ r.1) || decide (s ≥ r.2)))

/-- The day's booked ranges (server.py:462-477): same salon, start within
the target day, not cancelled. The Mongo bound `< 23:59:59` admits exactly
the minute-granularity starts `< date*1440 + 1440`. -/
def bookedRanges (st : AvailState) (salon_id : String) (date : Int) : List (Int × Int) :=
  (st.bookings.filter (fun b =>
      b.salonId == salon_id &&
      decide (date * 1440 ≤ b.startTime) && decide (b.startTime < date * 1440 + 1440) &&
      b.status != "cancelled")).map (fun b => (b.startTime, b.endTime))

/-- The slot while-loop of `get_available_slots` (server.py:480-511):
emit the window when the overlap count is below `totalSeats` and, on the
same day, the start is not in the past; advance by `slot_duration`.
`fuel` bounds the iteration count (for a positive step the loop runs at
most `day_end - dur + 1 - day_start` times, the fuel the caller passes);
the `sameDay` flag is the loop-invariant `target_date.date() == now.date()`
comparison. -/
def slotLoopF (day_end dur step seats now : Int) (booked : List (Int × Int)) (sameDay : Bool) :
    Nat → Int → List Slot
  | 0, _ => []
  | fuel + 1, current_slot =>
    if current_slot + dur ≤ day_end then
      let slot_end := current_slot + dur
      let overlapping := overlapCount booked current_slot slot_end
      let avail0 := decide ((overlapping : Int) < seats)
      let avail := if sameDay && decide (current_slot < now) then false else avail0
      (if avail then [⟨current_slot, slot_end, seats - overlapping⟩] else []) ++
        slotLoopF day_end dur step seats now booked sameDay fuel (current_slot + step)
    else []

/-- The candidate-window enumeration of the same loop (server.py:480-511),
before the capacity/past filters: starting at `day_start`, the candidates
`[current, current + dur)` while `current + dur ≤ day_end`, starts
advancing by `step`. -/
def genCandidates (day_end dur step : Int) : Nat → Int → List (Int × Int)
  | 0, _ => []
  | fuel + 1, current =>
    if current + dur ≤ day_end then
      (current, current + dur) :: genCandidates day_end dur step fuel (current + step)
    else []

/-- `get_available_slots` (server.py:429-512). The duration is the client
override when truthy (Python `if total_duration` treats 0 as falsy),
otherwise the service duration. -/
def get_available_slots (st : AvailState) (salon_id serviceId : String) (date : Int)
    (total_duration : Option Int) : List Slot :=
  match st.salon with
  | none => []
  | some salon =>
    match st.services.find? (fun sv => sv.id == serviceId && sv.active) with
    | none => []
    | some service =>
      let duration := match total_duration with
                      | some d => if d == 0 then service.durationMins else d
                      | none => service.durationMins
      let slot_duration := salon.slotDurationMins
      let total_seats := salon.totalSeats
      match get_working_hours_for_date salon date with
      | none => []
      | some oc =>
        let day_start := date * 1440 + oc.1
        let day_end := date * 1440 + oc.2
        let booked := bookedRanges st salon_id date
        let sameDay := date == st.now / 1440
        slotLoopF day_end duration slot_duration total_seats st.now booked sameDay
          (day_end - duration + 1 - day_start).toNat day_start

/-- The `{slots, date, serviceId}` response of the availability route. -/
structure AvailabilityResponse where
  slots : List Slot
  date : Int
  serviceId : String
deriving Repr, DecidableEq

/-- The `GET /api/public/availability` handler `get_availability`
(server.py:707-717): feature gate first (403), then missing salon (404),
then the slot computation. -/
def get_availability (st : AvailState) (serviceId : String) (date : Int)
    (totalDuration : Option Int) : Except Err AvailabilityResponse :=
  if !st.gateEnabled then .error .forbidden
  else
    match st.salon with
    | none => .error .notFound
    | some salon =>
      .ok ⟨get_available_slots st salon.id serviceId date totalDuration, date, serviceId⟩

theorem genCandidates_head (day_end dur step : Int) (fuel : Nat) (cur : Int) (c : Int × Int)
    (h : (genCandidates day_end dur step fuel cur).head? = some c) : c = (cur, cur + dur) := by
  cases fuel with
  | zero => simp [genCandidates] at h
  | succ n =>
    unfold genCandidates at h
    split at h
    · simpa using h.symm
    · simp at h

theorem genCandidates_mem (day_end dur step : Int) (hstep : 0 < step) :
    ∀ (fuel : Nat) (cur : Int), ∀ c ∈ genCandidates day_end dur step fuel cur,
      c.2 - c.1 = dur ∧ cur ≤ c.1 ∧ c.2 ≤ day_end := by
  intro fuel
  induction fuel with
  | zero => intro cur c hc; simp [genCandidates] at hc
  | succ n ih =>
    intro cur c hc
    unfold genCandidates at hc
    by_cases hcond : cur + dur ≤ day_end
    · rw [if_pos hcond] at hc
      rcases List.mem_cons.mp hc with h | h
      · subst h
        exact ⟨by simp, by simp, by simpa using hcond⟩
      · obtain ⟨h1, h2, h3⟩ := ih (cur + step) c h
        exact ⟨h1, by omega, h3⟩
    · rw [if_neg hcond] at hc
      simp at hc

theorem genCandidates_chain (day_end dur step : Int) :
    ∀ (fuel : Nat) (cur : Int),
      List.Chain' (fun a b : Int × Int => b.1 = a.1 + step)
        (genCandidates day_end dur step fuel cur) := by
  intro fuel
  induction fuel with
  | zero => intro cur; simp [genCandidates]
  | succ n ih =>
    intro cur
    unfold genCandidates
    split
    · rw [List.chain'_cons']
      refine ⟨?_, ih (cur + step)⟩
      intro y hy
      have hy2 := genCandidates_head day_end dur step n (cur + step) y (Option.mem_def.mp hy)
      subst hy2
      simp
    · simp

/-- C2: every candidate window of the slot loop spans exactly the requested
duration, starts no earlier than the open time, ends no later than the
close time, and consecutive starts are exactly the slot step apart
beginning at the open time. -/
theorem C2_slot_generation (day_end dur step openT : Int) (fuel : Nat) (hstep : 0 < step) :
    (∀ c ∈ genCandidates day_end dur step fuel openT,
        c.2 - c.1 = dur ∧ openT ≤ c.1 ∧ c.2 ≤ day_end) ∧
    List.Chain' (fun a b : Int × Int => b.1 = a.1 + step)
      (genCandidates day_end dur step fuel openT) ∧
    (∀ c, (genCandidates day_end dur step fuel openT).head? = some c → c.1 = openT) :=
  ⟨genCandidates_mem day_end dur step hstep fuel openT,
   genCandidates_chain day_end dur step fuel openT,
   fun c h => by rw [genCandidates_head day_end dur step fuel openT c h]⟩

/-- C2 witness: the default 10:00-20:00 window with 30-minute duration and
step, from minute 600. -/
theorem C2_witness :
    (0 : Int) < 30 ∧
    ((∀ c ∈ genCandidates 1200 30 30 20 600, c.2 - c.1 = 30 ∧ 600 ≤ c.1 ∧ c.2 ≤ 1200) ∧
     List.Chain' (fun a b : Int × Int => b.1 = a.1 + 30) (genCandidates 1200 30 30 20 600) ∧
     (∀ c, (genCandidates 1200 30 30 20 600).head? = some c → c.1 = 600)) :=
  ⟨by decide, C2_slot_generation 1200 30 30 600 20 (by decide)⟩

/-- C4 (amended): with the gate off the availability route fails Forbidden;
with the gate on and no salon profile it fails NotFound; with the gate on
and the referenced service missing or inactive it succeeds with an empty
slot list (it does not fail NotFound). -/
theorem C4_availability_errors (st : AvailState) (serviceId : String) (date : Int)
    (td : Option Int) :
    (st.gateEnabled = false → get_availability st serviceId date td = .error .forbidden) ∧
    (st.gateEnabled = true → st.salon = none →
      get_availability st serviceId date td = .error .notFound) ∧
    (∀ salon, st.gateEnabled = true → st.salon = some salon →
      st.services.find? (fun sv => sv.id == serviceId && sv.active) = none →
      get_availability st serviceId date td = .ok ⟨[], date, serviceId⟩) := by
  refine ⟨?_, ?_, ?_⟩
  · intro hg
    simp [get_availability, hg]
  · intro hg hsal
    simp [get_availability, hg, hsal]
  · intro salon hg hsal hsvc
    simp [get_availability, hg, hsal, get_available_slots, hsvc]

/-- Availability state with the gate on, a salon, and no services. -/
def stC4 : AvailState := ⟨true, some ⟨"salon-1", [], 30, 1⟩, [], [], 600⟩

/-- Availability state with the gate off. -/
def stC4off : AvailState := ⟨false, some ⟨"salon-1", [], 30, 1⟩, [], [], 600⟩

/-- Availability state with the gate on and no salon profile. -/
def stC4nosalon : AvailState := ⟨true, none, [], [], 600⟩

/-- C4 counterexample: gate enabled, salon present, referenced service
absent — the route succeeds with an empty slot list instead of failing
NotFound. -/
theorem C4_counterexample :
    get_availability stC4 "s1" 0 none = .ok ⟨[], 0, "s1"⟩ ∧
    get_availability stC4 "s1" 0 none ≠ .error .notFound :=
  ⟨rfl, by decide⟩

/-- C4 witness: the three branches of the amended claim at concrete
states. -/
theorem C4_witness :
    (stC4off.gateEnabled = false ∧
      get_availability stC4off "s1" 0 none = .error .forbidden) ∧
    (stC4nosalon.gateEnabled = true ∧ stC4nosalon.salon = none ∧
      get_availability stC4nosalon "s1" 0 none = .error .notFound) ∧
    (stC4.gateEnabled = true ∧ stC4.salon = some ⟨"salon-1", [], 30, 1⟩ ∧
      stC4.services.find? (fun sv => sv.id == "s1" && sv.active) = none ∧
      get_availability stC4 "s1" 0 none = .ok ⟨[], 0, "s1"⟩) :=
  ⟨⟨rfl, (C4_availability_errors stC4off "s1" 0 none).1 rfl⟩,
   ⟨rfl, rfl, (C4_availability_errors stC4nosalon "s1" 0 none).2.1 rfl rfl⟩,
   ⟨rfl, rfl, rfl,
     (C4_availability_errors stC4 "s1" 0 none).2.2 ⟨"salon-1", [], 30, 1⟩ rfl rfl rfl⟩⟩

theorem slotLoopF_sameDay (day_end dur step seats now : Int) (booked : List (Int × Int)) :
    ∀ (fuel : Nat) (cur : Int),
      ∀ s ∈ slotLoopF day_end dur step seats now booked true fuel cur,
        now ≤ s.startTime := by
  intro fuel
  induction fuel with
  | zero => intro cur s hs; simp [slotLoopF] at hs
  | succ n ih =>
    intro cur s hs
    unfold slotLoopF at hs
    split at hs
    · rw [List.mem_append] at hs
      rcases hs with hs | hs
      · by_cases hpast : cur < now
        · simp [hpast] at hs
        · simp [hpast] at hs
          obtain ⟨-, rfl⟩ := hs
          exact show now ≤ cur by omega
      · exact ih (cur + step) s hs
    · simp at hs

/-- C5 (amended): when the target date is today in the salon timezone,
every returned slot starts at or after the current instant — only slots
starting strictly before now are suppressed. -/
theorem C5_sameDay_filter (st : AvailState) (salon_id serviceId : String) (date : Int)
    (td : Option Int) (hdate : date = st.now / 1440) :
    ∀ s ∈ get_available_slots st salon_id serviceId date td, st.now ≤ s.startTime := by
  intro s hs
  unfold get_available_slots at hs
  cases hsal : st.salon with
  | none => simp [hsal] at hs
  | some salon =>
    cases hsvc : st.services.find? (fun sv => sv.id == serviceId && sv.active) with
    | none => simp [hsal, hsvc] at hs
    | some service =>
      cases hwh : get_working_hours_for_date salon date with
      | none => simp [hsal, hsvc, hwh] at hs
      | some oc =>
        simp only [hsal, hsvc, hwh] at hs
        have hsd : (date == st.now / 1440) = true := by simp [hdate]
        rw [hsd] at hs
        exact slotLoopF_sameDay _ _ _ _ _ _ _ _ s hs

/-- Availability state for the same-day boundary: now is minute 600 of day
0, the salon opens 10:00 and closes 11:00 on weekday 0. -/
def stC5 : AvailState :=
  ⟨true, some ⟨"salon-1", [⟨0, 600, 660, false⟩], 30, 1⟩, [⟨"s1", 30, true⟩], [], 600⟩

/-- C5 counterexample: a slot starting exactly at the current instant
(minute 600 of today) is returned, not excluded. -/
theorem C5_counterexample :
    (⟨600, 630, 1⟩ : Slot) ∈ get_available_slots stC5 "salon-1" "s1" 0 none ∧
    (0 : Int) = stC5.now / 1440 ∧ stC5.now = 600 := by
  refine ⟨?_, by decide, rfl⟩
  decide

/-- C5 witness: on the same day, every slot of the concrete state starts
at or after minute 600. -/
theorem C5_witness :
    (0 : Int) = stC5.now / 1440 ∧
    ∀ s ∈ get_available_slots stC5 "salon-1" "s1" 0 none, stC5.now ≤ s.startTime :=
  ⟨by decide, C5_sameDay_filter stC5 "salon-1" "s1" 0 none (by decide)⟩

theorem slotLoopF_remaining (day_end dur step seats now : Int) (booked : List (Int × Int))
    (sameDay : Bool) :
    ∀ (fuel : Nat) (cur : Int),
      ∀ s ∈ slotLoopF day_end dur step seats now booked sameDay fuel cur,
        s.remainingSeats = seats - (overlapCount booked s.startTime s.endTime : Int) ∧
        (overlapCount booked s.startTime s.endTime : Int) < seats ∧
        1 ≤ s.remainingSeats ∧ s.remainingSeats ≤ seats := by
  intro fuel
  induction fuel with
  | zero => intro cur s hs; simp [slotLoopF] at hs
  | succ n ih =>
    intro cur s hs
    unfold slotLoopF at hs
    split at hs
    · rw [List.mem_append] at hs
      rcases hs with hs | hs
      · by_cases hfilter : (sameDay && decide (cur < now)) = true
        · simp [hfilter] at hs
        · rw [Bool.not_eq_true] at hfilter
          rw [hfilter] at hs
          by_cases hcap : (overlapCount booked cur (cur + dur) : Int) < seats
          · rw [if_pos (by simpa using hcap)] at hs
            rw [List.mem_singleton] at hs
            subst hs
            refine ⟨?_, hcap, ?_, ?_⟩ <;> simp <;> omega
          · rw [if_neg (by simpa using hcap)] at hs
            simp at hs
      · exact ih (cur + step) s hs
    · simp at hs

/-- C10: every returned slot carries
`remainingSeats = totalSeats - overlapCount`, with
`1 ≤ remainingSeats ≤ totalSeats`; a window whose overlap count reaches
`totalSeats` is never returned. -/
theorem C10_remaining_seats (st : AvailState) (salon_id serviceId : String) (date : Int)
    (td : Option Int) (salon : Salon) (hsal : st.salon = some salon)
    (hseats : 1 ≤ salon.totalSeats) :
    ∀ s ∈ get_available_slots st salon_id serviceId date td,
      s.remainingSeats =
        salon.totalSeats - (overlapCount (bookedRanges st salon_id date) s.startTime s.endTime : Int) ∧
      (overlapCount (bookedRanges st salon_id date) s.startTime s.endTime : Int) < salon.totalSeats ∧
      1 ≤ s.remainingSeats ∧ s.remainingSeats ≤ salon.totalSeats := by
  intro s hs
  unfold get_available_slots at hs
  cases hsvc : st.services.find? (fun sv => sv.id == serviceId && sv.active) with
  | none => simp [hsal, hsvc] at hs
  | some service =>
    cases hwh : get_working_hours_for_date salon date with
    | none => simp [hsal, hsvc, hwh] at hs
    | some oc =>
      simp only [hsal, hsvc, hwh] at hs
      exact slotLoopF_remaining _ _ _ _ _ _ _ _ _ s hs

/-- Availability state for C10: two seats, one pending booking
`[600, 630)` on day 0. -/
def stC10 : AvailState :=
  ⟨true, some ⟨"salon-1", [⟨0, 600, 660, false⟩], 30, 2⟩, [⟨"s1", 30, true⟩],
   [⟨0, "salon-1", 600, 630, "pending", none⟩], 0⟩

/-- C10 witness: in the concrete two-seat state the slot `[630, 660)` is
returned with 2 remaining seats and the overlap bound holds. -/
theorem C10_witness :
    stC10.salon = some ⟨"salon-1", [⟨0, 600, 660, false⟩], 30, 2⟩ ∧
    (1 : Int) ≤ 2 ∧
    (⟨630, 660, 2⟩ : Slot) ∈ get_available_slots stC10 "salon-1" "s1" 0 none ∧
    ((⟨630, 660, 2⟩ : Slot).remainingSeats =
        2 - (overlapCount (bookedRanges stC10 "salon-1" 0) 630 660 : Int) ∧
      (overlapCount (bookedRanges stC10 "salon-1" 0) 630 660 : Int) < 2 ∧
      1 ≤ (⟨630, 660, 2⟩ : Slot).remainingSeats ∧
      (⟨630, 660, 2⟩ : Slot).remainingSeats ≤ 2) :=
  ⟨rfl, by decide, by decide,
   C10_remaining_seats stC10 "salon-1" "s1" 0 none _ rfl (by decide) ⟨630, 660, 2⟩ (by decide)⟩

/-- The audit entries recorded for booking `i` (the
`db.booking_changes.find({"bookingId": ...})` count). -/
def auditCount (db : DB) (i : Nat) : Nat :=
  db.changes.countP (fun c => c.bookingId == i)

/-- Whether a request is a change-logging operation targeting booking `i`
(status update or reschedule; creation writes no `BookingChange`). -/
def opTargets (i : Nat) : Op → Bool
  | .create .. => false
  | .setStatus j .. => j == i
  | .reschedule j .. => j == i

/-- Whether the request succeeds when run against `db`. -/
def succeeded (gate : Bool) (sid : String) (seats : Int) (db : DB) (op : Op) : Bool :=
  match step gate sid seats db op with
  | .ok _ => true
  | .error _ => false

/-- The number of successful status-update/reschedule requests targeting
booking `i` along a run. -/
def loggedOps (gate : Bool) (sid : String) (seats : Int) (i : Nat) (db : DB) : List Op → Nat
  | [] => 0
  | op :: ops =>
    (if opTargets i op && succeeded gate sid seats db op then 1 else 0) +
      loggedOps gate sid seats i (applyOp gate sid seats db op) ops

theorem auditCount_applyOp (gate : Bool) (sid : String) (seats : Int) (db : DB) (op : Op)
    (i : Nat) :
    auditCount (applyOp gate sid seats db op) i =
      auditCount db i + (if opTargets i op && succeeded gate sid seats db op then 1 else 0) := by
  cases hstep : step gate sid seats db op with
  | error e => simp [applyOp, succeeded, hstep]
  | ok db2 =>
    have hsucc : succeeded gate sid seats db op = true := by simp [succeeded, hstep]
    have happ : applyOp gate sid seats db op = db2 := by simp [applyOp, hstep]
    rw [happ, hsucc, Bool.and_true]
    cases op with
    | create s dur =>
      simp only [step] at hstep
      split at hstep
      · exact absurd hstep (by simp)
      · split at hstep
        · cases hstep
          simp [auditCount, opTargets]
        · exact absurd hstep (by simp)
    | setStatus j st staff =>
      cases hfind : db.bookings.find? (fun b => b.id == j) with
      | none =>
        simp only [step, hfind] at hstep
        split at hstep <;> simp at hstep
      | some b =>
        simp only [step, hfind] at hstep
        split at hstep
        · simp at hstep
        · split at hstep
          · cases hstep
            simp [auditCount, opTargets, List.countP_append, List.countP_cons]
          · simp at hstep
    | reschedule j ns staff now =>
      cases hfind : db.bookings.find? (fun b => b.id == j) with
      | none =>
        simp only [step, hfind] at hstep
        split at hstep <;> simp at hstep
      | some b =>
        simp only [step, hfind] at hstep
        split at hstep
        · simp at hstep
        · split at hstep
          · simp at hstep
          · split at hstep
            · cases hstep
              simp [auditCount, opTargets, List.countP_append, List.countP_cons]
            · simp at hstep

theorem auditCount_runOps (gate : Bool) (sid : String) (seats : Int) (i : Nat) :
    ∀ (ops : List Op) (db : DB),
      auditCount (runOps gate sid seats db ops) i =
        auditCount db i + loggedOps gate sid seats i db ops := by
  intro ops
  induction ops with
  | nil => intro db; simp [runOps, loggedOps]
  | cons op ops ih =>
    intro db
    rw [runOps, loggedOps, ih, auditCount_applyOp]
    omega

/-- C3 (amended): booking creation writes no audit record; each successful
status-update or reschedule writes exactly one, so for every booking the
audit entry count after any request sequence equals the number of
successful status-update/reschedule requests targeting it. -/
theorem C3_audit_count (gate : Bool) (sid : String) (seats : Int) (i : Nat) (ops : List Op) :
    auditCount (runOps gate sid seats dbInit ops) i =
      loggedOps gate sid seats i dbInit ops := by
  rw [auditCount_runOps]
  exact Nat.zero_add _

/-- C3 counterexample: a successful create is a mutating lifecycle call,
yet after it the created booking's audit count is 0, not 1. -/
theorem C3_counterexample :
    succeeded true "salon-1" 1 dbInit (.create 0 30) = true ∧
    auditCount (runOps true "salon-1" 1 dbInit [.create 0 30]) 0 = 0 :=
  ⟨by decide, by decide⟩

theorem activeAt_iff (t : Int) (b : Booking) :
    activeAt t b = true ↔ b.status ≠ "cancelled" ∧ b.startTime ≤ t ∧ t < b.endTime := by
  simp [activeAt, and_assoc]

theorem conflictP_none_iff (sid : String) (s e : Int) (b : Booking) :
    conflictP sid s e none b = true ↔
      b.salonId = sid ∧ b.status ≠ "cancelled" ∧ b.startTime < e ∧ s < b.endTime := by
  simp [conflictP, overlapsQ, and_assoc]

theorem conflictP_some_iff (sid : String) (s e : Int) (j : Nat) (b : Booking) :
    conflictP sid s e (some j) b = true ↔
      b.salonId = sid ∧ b.status ≠ "cancelled" ∧ b.startTime < e ∧ s < b.endTime ∧ b.id ≠ j := by
  simp [conflictP, overlapsQ, and_assoc]

theorem check_slot_available_iff (seats : Int) (bks : List Booking) (sid : String)
    (s e : Int) (excl : Option Nat) :
    check_slot_available seats bks sid s e excl = true ↔
      (bks.countP (conflictP sid s e excl) : Int) < seats := by
  simp [check_slot_available]

theorem updateFirst_decomp (i : Nat) (f : Booking → Booking) (l : List Booking) (b : Booking)
    (hfind : l.find? (fun x => x.id == i) = some b) :
    ∃ l₁ l₂, l = l₁ ++ b :: l₂ ∧ updateFirst i f l = l₁ ++ f b :: l₂ := by
  induction l with
  | nil => simp at hfind
  | cons a l ih =>
    by_cases h : (a.id == i) = true
    · have hab : a = b := by
        rw [List.find?_cons_of_pos (p := fun x : Booking => x.id == i) l h] at hfind
        exact Option.some.inj hfind
      subst hab
      exact ⟨[], l, rfl, by simp [updateFirst, h]⟩
    · have htail : l.find? (fun x => x.id == i) = some b := by
        rw [List.find?_cons_of_neg (p := fun x : Booking => x.id == i) l (by simpa using h)]
          at hfind
        exact hfind
      obtain ⟨l₁, l₂, he, hu⟩ := ih htail
      refine ⟨a :: l₁, l₂, by rw [List.cons_append, ← he], ?_⟩
      rw [updateFirst, if_neg h, hu, List.cons_append]

theorem map_id_updateFirst (i : Nat) (f : Booking → Booking) (l : List Booking)
    (hf : ∀ bk, (f bk).id = bk.id) :
    (updateFirst i f l).map (fun x => x.id) = l.map (fun x => x.id) := by
  induction l with
  | nil => rfl
  | cons a l ih =>
    by_cases h : (a.id == i) = true
    · simp [updateFirst, h, hf]
    · simp [updateFirst, h, ih]

theorem mem_updateFirst (i : Nat) (f : Booking → Booking) (l : List Booking) (x : Booking)
    (hx : x ∈ updateFirst i f l) : x ∈ l ∨ ∃ b ∈ l, x = f b := by
  induction l with
  | nil => simp [updateFirst] at hx
  | cons a l ih =>
    unfold updateFirst at hx
    by_cases h : (a.id == i) = true
    · rw [if_pos h] at hx
      rcases List.mem_cons.mp hx with hxa | hx2
      · exact Or.inr ⟨a, List.mem_cons_self a l, hxa⟩
      · exact Or.inl (List.mem_cons_of_mem a hx2)
    · rw [if_neg h] at hx
      rcases List.mem_cons.mp hx with hxa | hx2
      · exact Or.inl (hxa ▸ List.mem_cons_self a l)
      · rcases ih hx2 with h1 | ⟨c, hc, hxc⟩
        · exact Or.inl (List.mem_cons_of_mem a h1)
        · exact Or.inr ⟨c, List.mem_cons_of_mem a hc, hxc⟩

theorem capacityOK_create (sid : String) (seats : Int) (bks : List Booking)
    (s e : Int) (nid : Nat)
    (hcap : capacityOK seats bks)
    (hsid : ∀ b ∈ bks, b.salonId = sid)
    (hchk : (bks.countP (conflictP sid s e none) : Int) < seats) :
    capacityOK seats (bks ++ [⟨nid, sid, s, e, "pending", none⟩]) := by
  intro t
  rw [List.countP_append]
  by_cases hact : activeAt t (⟨nid, sid, s, e, "pending", none⟩ : Booking) = true
  · have hts : s ≤ t ∧ t < e := by
      have h := (activeAt_iff t ⟨nid, sid, s, e, "pending", none⟩).mp hact
      exact ⟨h.2.1, h.2.2⟩
    have hmono : bks.countP (activeAt t) ≤ bks.countP (conflictP sid s e none) :=
      List.countP_mono_left (fun b hb hbact => by
        obtain ⟨h1, h2, h3⟩ := (activeAt_iff t b).mp hbact
        exact (conflictP_none_iff sid s e b).mpr ⟨hsid b hb, h1, by omega, by omega⟩)
    have h1 : List.countP (activeAt t) [⟨nid, sid, s, e, "pending", none⟩] = 1 := by
      simp [List.countP_cons, hact]
    rw [h1]
    push_cast
    omega
  · rw [Bool.not_eq_true] at hact
    have h0 : List.countP (activeAt t) [⟨nid, sid, s, e, "pending", none⟩] = 0 := by
      simp [List.countP_cons, hact]
    rw [h0]
    simpa using hcap t

theorem capacityOK_setStatus (seats : Int) (bks : List Booking) (i : Nat) (st : String)
    (staff : Option String) (b : Booking)
    (hfind : bks.find? (fun x => x.id == i) = some b)
    (hcap : capacityOK seats bks)
    (hnores : ¬(b.status = "cancelled" ∧ st ≠ "cancelled")) :
    capacityOK seats (updateFirst i
      (fun bk => { bk with
                    status := st,
                    staffId := match staff with
                               | some x => some x
                               | none => bk.staffId }) bks) := by
  intro t
  obtain ⟨l₁, l₂, he, hu⟩ := updateFirst_decomp i _ bks b hfind
  rw [hu, List.countP_append, List.countP_cons]
  have hl := hcap t
  rw [he, List.countP_append, List.countP_cons] at hl
  split
  · rename_i hfb
    have hb : activeAt t b = true := by
      obtain ⟨h1, h2, h3⟩ := (activeAt_iff t _).mp hfb
      refine (activeAt_iff t b).mpr ⟨?_, h2, h3⟩
      intro hbc
      exact hnores ⟨hbc, h1⟩
    rw [if_pos hb] at hl
    exact hl
  · refine le_trans ?_ hl
    have hn : (l₂.countP (activeAt t) + 0 : Nat) ≤
        l₂.countP (activeAt t) + if activeAt t b = true then 1 else 0 :=
      Nat.add_le_add_left (Nat.zero_le _) _
    exact_mod_cast Nat.add_le_add_left hn _

theorem capacityOK_reschedule (sid : String) (seats : Int) (bks : List Booking) (i : Nat)
    (ns : Int) (staff : Option String) (b : Booking)
    (hfind : bks.find? (fun x => x.id == i) = some b)
    (hcap : capacityOK seats bks)
    (hnodup : (bks.map (fun x => x.id)).Nodup)
    (hsid : ∀ x ∈ bks, x.salonId = sid)
    (hchk : (bks.countP
        (conflictP b.salonId ns (ns + (b.endTime - b.startTime)) (some i)) : Int) < seats) :
    capacityOK seats (updateFirst i
      (fun bk => { bk with
                    startTime := ns,
                    endTime := ns + (b.endTime - b.startTime),
                    status := "confirmed",
                    staffId := match staff with
                               | some x => some x
                               | none => bk.staffId }) bks) := by
  intro t
  have hbid : b.id = i := by simpa using List.find?_some hfind
  have hbmem : b ∈ bks := List.mem_of_find?_eq_some hfind
  have hbsid : b.salonId = sid := hsid b hbmem
  obtain ⟨l₁, l₂, he, hu⟩ := updateFirst_decomp i _ bks b hfind
  have hids : ∀ x, x ∈ l₁ ∨ x ∈ l₂ → x.id ≠ i := by
    have hnd := hnodup
    rw [he, List.map_append, List.map_cons, List.nodup_append] at hnd
    obtain ⟨hn1, hn2, hdisj⟩ := hnd
    rw [List.nodup_cons] at hn2
    intro x hx hxi
    rcases hx with hx | hx
    · exact hdisj (List.mem_map_of_mem _ hx)
        (by rw [hxi, ← hbid]; exact List.mem_cons_self _ _)
    · exact hn2.1 (by rw [hbid, ← hxi]; exact List.mem_map_of_mem _ hx)
  have hmem : ∀ x, x ∈ l₁ ∨ x ∈ l₂ → x ∈ bks := by
    intro x hx
    rw [he]
    rcases hx with hx | hx
    · exact List.mem_append_left _ hx
    · exact List.mem_append_right _ (List.mem_cons_of_mem _ hx)
  rw [hu, List.countP_append, List.countP_cons]
  split
  · -- t lies in the new window; bound the others by the conflict count
    rename_i hfb
    have hts : ns ≤ t ∧ t < ns + (b.endTime - b.startTime) := by
      have h := (activeAt_iff t _).mp hfb
      exact ⟨h.2.1, h.2.2⟩
    have hm1 : l₁.countP (activeAt t) ≤
        l₁.countP (conflictP b.salonId ns (ns + (b.endTime - b.startTime)) (some i)) :=
      List.countP_mono_left (fun x hx hxact => by
        obtain ⟨h1, h2, h3⟩ := (activeAt_iff t x).mp hxact
        refine (conflictP_some_iff _ _ _ _ _).mpr
          ⟨by rw [hsid x (hmem x (Or.inl hx)), hbsid], h1, by omega, by omega,
            hids x (Or.inl hx)⟩)
    have hm2 : l₂.countP (activeAt t) ≤
        l₂.countP (conflictP b.salonId ns (ns + (b.endTime - b.startTime)) (some i)) :=
      List.countP_mono_left (fun x hx hxact => by
        obtain ⟨h1, h2, h3⟩ := (activeAt_iff t x).mp hxact
        refine (conflictP_some_iff _ _ _ _ _).mpr
          ⟨by rw [hsid x (hmem x (Or.inr hx)), hbsid], h1, by omega, by omega,
            hids x (Or.inr hx)⟩)
    have hconb : conflictP b.salonId ns (ns + (b.endTime - b.startTime)) (some i) b = false := by
      refine Bool.eq_false_iff.mpr (fun hc => ?_)
      exact ((conflictP_some_iff _ _ _ _ _).mp hc).2.2.2.2 hbid
    have hcon : bks.countP (conflictP b.salonId ns (ns + (b.endTime - b.startTime)) (some i)) =
        l₁.countP (conflictP b.salonId ns (ns + (b.endTime - b.startTime)) (some i)) +
          l₂.countP (conflictP b.salonId ns (ns + (b.endTime - b.startTime)) (some i)) := by
      rw [he, List.countP_append, List.countP_cons, hconb]
      simp
    rw [hcon] at hchk
    push_cast
    omega
  · have hl := hcap t
    rw [he, List.countP_append, List.countP_cons] at hl
    refine le_trans ?_ hl
    have hn : (l₂.countP (activeAt t) + 0 : Nat) ≤
        l₂.countP (activeAt t) + if activeAt t b = true then 1 else 0 :=
      Nat.add_le_add_left (Nat.zero_le _) _
    exact_mod_cast Nat.add_le_add_left hn _

theorem nodup_updateFirst (i : Nat) (f : Booking → Booking) (l : List Booking)
    (hf : ∀ bk, (f bk).id = bk.id) (h : (l.map (fun x => x.id)).Nodup) :
    ((updateFirst i f l).map (fun x => x.id)).Nodup := by
  rw [map_id_updateFirst i f l hf]
  exact h

/-- The inductive invariant: the capacity bound plus bookkeeping facts
(ids are unique and below the counter; all bookings belong to the salon). -/
def Inv (sid : String) (seats : Int) (db : DB) : Prop :=
  capacityOK seats db.bookings ∧
  (db.bookings.map (fun x => x.id)).Nodup ∧
  (∀ b ∈ db.bookings, b.id < db.nextId) ∧
  (∀ b ∈ db.bookings, b.salonId = sid)

theorem Inv_applyOp (gate : Bool) (sid : String) (seats : Int) (db : DB) (op : Op)
    (hInv : Inv sid seats db) (hres : resurrects db op = false) :
    Inv sid seats (applyOp gate sid seats db op) := by
  obtain ⟨hcap, hnodup, hbound, hsal⟩ := hInv
  cases hstep : step gate sid seats db op with
  | error e =>
    have happ : applyOp gate sid seats db op = db := by simp [applyOp, hstep]
    rw [happ]
    exact ⟨hcap, hnodup, hbound, hsal⟩
  | ok db2 =>
    have happ : applyOp gate sid seats db op = db2 := by simp [applyOp, hstep]
    rw [happ]
    cases op with
    | create s dur =>
      simp only [step] at hstep
      split at hstep
      · simp at hstep
      · split at hstep
        · rename_i hchk
          cases hstep
          refine ⟨?_, ?_, ?_, ?_⟩
          · exact capacityOK_create sid seats db.bookings s (s + dur) db.nextId hcap hsal
              ((check_slot_available_iff seats db.bookings sid s (s + dur) none).mp hchk)
          · rw [List.map_append, List.nodup_append]
            refine ⟨hnodup, List.nodup_singleton _, ?_⟩
            intro a ha hb
            obtain ⟨x, hx, hxa⟩ := List.mem_map.mp ha
            have hab : a = db.nextId := by simpa using hb
            subst hab
            exact absurd hxa (Nat.ne_of_lt (hbound x hx))
          · intro x hx
            rcases List.mem_append.mp hx with h | h
            · exact Nat.lt_succ_of_lt (hbound x h)
            · have : x = ⟨db.nextId, sid, s, s + dur, "pending", none⟩ := by simpa using h
              rw [this]
              exact Nat.lt_succ_self _
          · intro x hx
            rcases List.mem_append.mp hx with h | h
            · exact hsal x h
            · have : x = ⟨db.nextId, sid, s, s + dur, "pending", none⟩ := by simpa using h
              rw [this]
        · simp at hstep
    | setStatus j st staff =>
      cases hfind : db.bookings.find? (fun x => x.id == j) with
      | none =>
        simp only [step, hfind] at hstep
        split at hstep <;> simp at hstep
      | some b =>
        simp only [step, hfind] at hstep
        split at hstep
        · simp at hstep
        · split at hstep
          · rename_i hcont
            cases hstep
            have hnores : ¬(b.status = "cancelled" ∧ st ≠ "cancelled") := by
              intro hrc
              have hmem : st ∈ validStatuses := by simpa using hcont
              have hr : resurrects db (.setStatus j st staff) = true := by
                simp [resurrects, hfind, hrc.1, hrc.2, hmem]
              rw [hres] at hr
              exact Bool.false_ne_true hr
            refine ⟨capacityOK_setStatus seats db.bookings j st staff b hfind hcap hnores,
              ?_, ?_, ?_⟩
            · exact nodup_updateFirst j _ db.bookings (fun bk => rfl) hnodup
            · intro x hx
              rcases mem_updateFirst j _ db.bookings x hx with h | ⟨c, hc, hxc⟩
              · exact hbound x h
              · rw [hxc]; exact hbound c hc
            · intro x hx
              rcases mem_updateFirst j _ db.bookings x hx with h | ⟨c, hc, hxc⟩
              · exact hsal x h
              · rw [hxc]; exact hsal c hc
          · simp at hstep
    | reschedule j ns staff now =>
      cases hfind : db.bookings.find? (fun x => x.id == j) with
      | none =>
        simp only [step, hfind] at hstep
        split at hstep <;> simp at hstep
      | some b =>
        simp only [step, hfind] at hstep
        split at hstep
        · simp at hstep
        · split at hstep
          · simp at hstep
          · split at hstep
            · rename_i hchk
              cases hstep
              refine ⟨capacityOK_reschedule sid seats db.bookings j ns staff b hfind hcap
                  hnodup hsal ((check_slot_available_iff _ _ _ _ _ _).mp hchk),
                ?_, ?_, ?_⟩
              · exact nodup_updateFirst j _ db.bookings (fun bk => rfl) hnodup
              · intro x hx
                rcases mem_updateFirst j _ db.bookings x hx with h | ⟨c, hc, hxc⟩
                · exact hbound x h
                · rw [hxc]; exact hbound c hc
              · intro x hx
                rcases mem_updateFirst j _ db.bookings x hx with h | ⟨c, hc, hxc⟩
                · exact hsal x h
                · rw [hxc]; exact hsal c hc
            · simp at hstep

theorem Inv_runOps (gate : Bool) (sid : String) (seats : Int) :
    ∀ (ops : List Op) (db : DB), Inv sid seats db →
      noResurrect gate sid seats db ops = true →
      Inv sid seats (runOps gate sid seats db ops) := by
  intro ops
  induction ops with
  | nil => intro db h _; exact h
  | cons op ops ih =>
    intro db h hnr
    rw [noResurrect, Bool.and_eq_true] at hnr
    exact ih _ (Inv_applyOp gate sid seats db op h (by simpa using hnr.1)) hnr.2

/-- C1 (amended): from the initially empty store with a fixed non-negative
seat count, any request sequence executed one at a time that never turns a
cancelled booking back into a non-cancelled status preserves the capacity
invariant: at every instant the number of non-cancelled bookings whose
`[startTime, endTime)` contains it is at most `totalSeats`. -/
theorem C1_capacity_amended (gate : Bool) (sid : String) (seats : Int) (ops : List Op)
    (hseats : 0 ≤ seats)
    (hnr : noResurrect gate sid seats dbInit ops = true) :
    capacityOK seats (runOps gate sid seats dbInit ops).bookings :=
  (Inv_runOps gate sid seats ops dbInit
    ⟨fun t => by simpa [dbInit] using hseats, by simp [dbInit], by simp [dbInit],
      by simp [dbInit]⟩
    hnr).1

/-- C1 counterexample: with one seat — book `[0, 30)`, cancel it, book the
freed window again, then set the cancelled booking back to `confirmed`; at
instant 0 two non-cancelled bookings overlap, exceeding `totalSeats = 1`. -/
theorem C1_counterexample :
    ¬ capacityOK 1 (runOps true "salon-1" 1 dbInit
      [.create 0 30, .setStatus 0 "cancelled" none, .create 0 30,
       .setStatus 0 "confirmed" none]).bookings :=
  fun h => absurd (h 0) (by decide)

/-- C1 witness: a create followed by a confirmation never un-cancels, and
the capacity bound holds at instant 10. -/
theorem C1_witness :
    (0 : Int) ≤ 1 ∧
    noResurrect true "salon-1" 1 dbInit [.create 0 30, .setStatus 0 "confirmed" none] = true ∧
    ((runOps true "salon-1" 1 dbInit
        [.create 0 30, .setStatus 0 "confirmed" none]).bookings.countP (activeAt 10) : Int) ≤ 1 :=
  ⟨by decide, by decide,
   C1_capacity_amended true "salon-1" 1 [.create 0 30, .setStatus 0 "confirmed" none]
     (by decide) (by decide) 10⟩

end StoreFront
